import Mathlib

set_option maxRecDepth 40000

/-!
Verification of the Mentorix response-segmentation and document-structuring
pipeline.  The Python sources (`gemini_llm.py`, `teaching_agent_team.py`,
`pdf_helper.py`) are shallowly embedded below: strings are `String` (backed by
`List Char`), the remote HTTP call is an environment `Nat → RespEvent` giving
the outcome of each attempt, and fallible code returns `Except`.
-/

/-! ## Python string primitives

Character-level helpers mirroring the Python string operations used by the
sources.  Python `\s` and `str.strip` whitespace is modelled by the ASCII
whitespace set (the sources only ever compare against ASCII literals).
-/

/-- Python whitespace class (ASCII part): space, tab, newline, carriage
return, vertical tab, form feed. -/
def isPySpace (c : Char) : Bool :=
  c = ' ' || c = '\t' || c = '\n' || c = '\r' || c = Char.ofNat 11 || c = Char.ofNat 12

/-- ASCII lower-casing of one character (Python `str.lower`; the sources only
match ASCII keywords, on which full Unicode lowering agrees). -/
def lowerChar (c : Char) : Char :=
  if 65 ≤ c.toNat && c.toNat ≤ 90 then Char.ofNat (c.toNat + 32) else c

/-- ASCII upper-casing of one character (Python `str.upper`). -/
def upperChar (c : Char) : Char :=
  if 97 ≤ c.toNat && c.toNat ≤ 122 then Char.ofNat (c.toNat - 32) else c

/-- Python `s.startswith(p)` on character lists. -/
def startsWithL : List Char → List Char → Bool
  | _, [] => true
  | [], _ :: _ => false
  | c :: cs, p :: ps => c = p && startsWithL cs ps

/-- Python `pat in s` (substring containment). -/
def hasSubstr (s pat : List Char) : Bool :=
  startsWithL s pat ||
    match s with
    | [] => false
    | _ :: cs => hasSubstr cs pat

/-- Python `s.find(pat)`: index of the first occurrence, `none` if absent. -/
def findSub? (s pat : List Char) : Option Nat :=
  if startsWithL s pat then some 0
  else
    match s with
    | [] => none
    | _ :: cs => (findSub? cs pat).map (· + 1)

/-- Python `s.strip()` on character lists. -/
def pyStripL (s : List Char) : List Char :=
  ((s.dropWhile isPySpace).reverse.dropWhile isPySpace).reverse

/-- Python `s.strip()` on strings. -/
def pyStrip (s : String) : String := ⟨pyStripL s.data⟩

/-- Python `s.lower()` on character lists (ASCII scope, see `lowerChar`). -/
def pyLowerL (s : List Char) : List Char := s.map lowerChar

/-- Python `s.upper()` on character lists (ASCII scope). -/
def pyUpperL (s : List Char) : List Char := s.map upperChar

/-- Regex `\s*`: greedily skip whitespace. -/
def skipWS (s : List Char) : List Char := s.dropWhile isPySpace

/-- Case-insensitive literal match: `pat` is given lower-cased; on success
return the rest of the input after the matched prefix. -/
def matchLitCI : List Char → List Char → Option (List Char)
  | [], s => some s
  | _ :: _, [] => none
  | p :: ps, c :: cs => if lowerChar c = p then matchLitCI ps cs else none

/-- Shorthand: the character list of a string literal. -/
def tk (s : String) : List Char := s.data

/-- Match a sequence of case-insensitive literal tokens separated by `\s*`
(the shape of every section-marker regex alternative in the source). -/
def tokSeqCI : List (List Char) → List Char → Bool
  | [], _ => true
  | t :: ts, s =>
    match matchLitCI t s with
    | some r => tokSeqCI ts (skipWS r)
    | none => false

/-! ## `gemini_llm.py`: the Completion Service

`GeminiLLM.run` loops over `range(retries)` attempts.  The network is
modelled by an environment `events : Nat → RespEvent` giving the outcome of
each attempt: a well-formed 200 response carrying its text part, a 200
response whose body lacks the candidates/content/parts structure (KeyError /
IndexError / JSONDecodeError in the source), a non-200 HTTP status with its
body text, or one of the three `requests` exception classes.
-/

/-- Outcome of one HTTP attempt, as seen by `GeminiLLM.run`. -/
inductive RespEvent where
  | ok (text : String)
  | badParse
  | http (code : Nat) (body : String)
  | readTimeout
  | connErr
  | reqErr (msg : String)
deriving DecidableEq

/-- The `RuntimeError`s raised by `GeminiLLM.run`, one constructor per
`raise` site in the source. -/
inductive GemError where
  | quotaExhausted
  | invalidRequest (code : Nat)
  | apiError (code : Nat) (body : String)
  | timedOut
  | connectionFailed
  | networkError (msg : String)
  | parseFailed
  | exhaustedFallback
deriving DecidableEq

/-- The body of the `for attempt in range(retries)` loop, processing the
remaining attempt indices in order; the empty list is the post-loop
fallback `raise` at the end of `run`. -/
def runLoop (events : Nat → RespEvent) (retries : Nat) :
    List Nat → Except GemError String
  | [] => .error .exhaustedFallback
  | attempt :: rest =>
    match events attempt with
    | .ok text => .ok text
    | .badParse => .error .parseFailed
    | .http code body =>
      if code = 429 then
        if attempt < retries - 1 then runLoop events retries rest
        else .error .quotaExhausted
      else if code = 400 ∨ code = 403 then .error (.invalidRequest code)
      else if attempt < retries - 1 then runLoop events retries rest
      else .error (.apiError code body)
    | .readTimeout =>
      if attempt < retries - 1 then runLoop events retries rest
      else .error .timedOut
    | .connErr =>
      if attempt < retries - 1 then runLoop events retries rest
      else .error .connectionFailed
    | .reqErr msg =>
      if attempt < retries - 1 then runLoop events retries rest
      else .error (.networkError msg)

/-- Model of `GeminiLLM.run(prompt, retries)`: the prompt only determines the request
payload, which the environment already accounts for, so it is not a
parameter of the model. -/
def GeminiLLM.run (events : Nat → RespEvent) (retries : Nat) :
    Except GemError String :=
  runLoop events retries (List.range retries)

/-- Function `is_quota_exhausted` from `teaching_agent_team.py`. -/
def is_quota_exhausted (text : String) : Bool :=
  startsWithL text.data (tk "QUOTA_EXHAUSTED")

/-- An event on which the loop body executes `continue` (when attempts
remain): 429, any other retryable status, or one of the three caught
`requests` exceptions. -/
def retryableEvent : RespEvent → Bool
  | .ok _ => false
  | .badParse => false
  | .http code _ => !(code = 400 : Bool) && !(code = 403 : Bool)
  | .readTimeout => true
  | .connErr => true
  | .reqErr _ => true

/-- Events that make `run` raise at once, with the error raised: status
400/403, or a 200 response whose body fails to parse. -/
def immediateFailure : RespEvent → Option GemError
  | .badParse => some .parseFailed
  | .http code _ =>
    if code ≠ 429 ∧ (code = 400 ∨ code = 403) then some (.invalidRequest code)
    else none
  | _ => none

example : GeminiLLM.run (fun _ => .http 429 "") 3 = .error .quotaExhausted := rfl
example : GeminiLLM.run (fun _ => .ok "hi") 3 = .ok "hi" := rfl
example : GeminiLLM.run (fun j => if j = 0 then .readTimeout else .http 400 "x") 3
    = .error (.invalidRequest 400) := rfl

/-! ## `teaching_agent_team.py`: data model and Bloom-level detection -/

/-- One row of the Question Pattern Builder: `{"count": N, "marks": M}`. -/
structure QuestionPattern where
  count : Nat
  marks : Nat
deriving DecidableEq

/-- One custom teacher-framed question. -/
structure CustomQuestion where
  text : String
  marks : Nat
  bloom_level : String
deriving DecidableEq

/-- The six fixed cognitive levels, in declaration order. -/
def BLOOM_LEVELS : List String :=
  ["Remembering", "Understanding", "Applying", "Analyzing", "Evaluating", "Creating"]

/-- The trigger-keyword table, in declaration order. -/
def BLOOM_KEYWORDS : List (String × List String) :=
  [("Remembering", ["define", "list", "name", "state", "identify", "recall", "what is", "mention"]),
   ("Understanding", ["explain", "summarize", "describe", "differentiate", "classify", "interpret", "outline"]),
   ("Applying", ["apply", "solve", "use", "demonstrate", "calculate", "implement", "show how"]),
   ("Analyzing", ["analyze", "compare", "contrast", "examine", "categorize", "investigate", "why"]),
   ("Evaluating", ["evaluate", "justify", "critique", "assess", "argue", "recommend", "validate"]),
   ("Creating", ["design", "create", "develop", "construct", "propose", "formulate", "build"])]

/-- Score of one level: the inner `for keyword in keywords` loop, adding 3 for
a `startswith` hit, else 1 for a substring hit. -/
def levelScore (text : List Char) (keywords : List String) : Nat :=
  keywords.foldl
    (fun s kw =>
      if startsWithL text kw.data then s + 3
      else if hasSubstr text kw.data then s + 1
      else s)
    0

/-- Python `max(scores, key=scores.get)` over the scores dict: fold keeping the
current best, replacing it only on a strictly greater value, so the
first-declared key wins ties. -/
def pyMaxPair : List (String × Nat) → String × Nat
  | [] => ("", 0)
  | p :: ps => ps.foldl (fun best x => if x.2 > best.2 then x else best) p

/-- Function `detect_bloom_level` from the source.  The scores dict starts at 0 per
level and each level slot is incremented only by its own keyword loop, so
after the double loop the dict is `BLOOM_KEYWORDS` with each keyword list
replaced by its `levelScore`. -/
def detect_bloom_level (question_text : String) : String :=
  let text := pyLowerL (pyStripL question_text.data)
  if text = [] then "Not detected"
  else
    let scores := BLOOM_KEYWORDS.map (fun p => (p.1, levelScore text p.2))
    let best := pyMaxPair scores
    if best.2 > 0 then best.1 else "Understanding"

example : detect_bloom_level "Define a stack." = "Remembering" := by decide
example : detect_bloom_level "   " = "Not detected" := by decide
example : detect_bloom_level "qqq" = "Understanding" := by decide
example : detect_bloom_level "Explain why compilers use it" = "Understanding" := by decide

/-! ## `question_instruction`: the mark-distribution instruction

`marks_map` is a Python dict from mark value to summed count, modelled as an
insertion-ordered association list with unique keys; `sorted(marks_map.items())`
sorts the pairs lexicographically (keys are distinct).
-/

/-- Python `d.get(k, 0)`. -/
def dictGet : List (Nat × Nat) → Nat → Nat
  | [], _ => 0
  | (k', v) :: rest, k => if k' = k then v else dictGet rest k

/-- Python `d[k] = v`: overwrite the existing entry in place, else append. -/
def dictSet : List (Nat × Nat) → Nat → Nat → List (Nat × Nat)
  | [], k, v => [(k, v)]
  | (k', v') :: rest, k, v =>
    if k' = k then (k, v) :: rest else (k', v') :: dictSet rest k v

/-- Python tuple comparison on `(marks, count)` pairs, used by `sorted`. -/
def pairLe (a b : Nat × Nat) : Bool :=
  decide (a.1 < b.1 ∨ (a.1 = b.1 ∧ a.2 ≤ b.2))

/-- One output line, `f"- {count} questions of {marks} marks each"`. -/
def markLine (count marks : Nat) : String :=
  "- " ++ toString count ++ " questions of " ++ toString marks ++ " marks each"

/-- Function `question_instruction(custom_qs)` from the source (the question-pattern
list, read from session state there, is an explicit argument here). -/
def question_instruction (patterns : List QuestionPattern)
    (custom_qs : List CustomQuestion) : String :=
  let m1 := patterns.foldl
    (fun d q => dictSet d q.marks (dictGet d q.marks + q.count)) []
  let marks_map := custom_qs.foldl
    (fun d q => dictSet d q.marks (dictGet d q.marks + 1)) m1
  String.intercalate "\n"
    ((marks_map.mergeSort pairLe).map (fun p => markLine p.2 p.1))

unseal List.merge List.mergeSort in
example : question_instruction [⟨4, 2⟩] [] = "- 4 questions of 2 marks each" := rfl

unseal List.merge List.mergeSort in
example : question_instruction [⟨4, 2⟩, ⟨1, 5⟩, ⟨3, 2⟩] [⟨"Explain X", 5, "Understanding"⟩]
    = "- 7 questions of 2 marks each\n- 2 questions of 5 marks each" := rfl

/-! ## The Response Segmenter (`SPLIT SECTIONS` block of the source)

Each of the four `section_patterns` regexes has the shape
`(?:^|\n)\s*(?:ALT|ALT|...)` where every alternative is a sequence of
case-insensitive literal tokens separated by `\s*`.  A "core" below is the
part after the `(?:^|\n)` anchor; `searchAnchored` reproduces `re.search`,
returning the start index of the leftmost match (the index of the matched
`\n` when matched via the `\n` branch of the anchor).
-/

/-- Python `content.replace("\r", "")`. -/
def normalizedOf (content : String) : List Char :=
  content.data.filter (fun c => c ≠ '\r')

/-- Core of the `notes` pattern:
`\s*(?:SECTION\s*1\s*:\s*STRUCTURED\s*NOTES|1\.\s*STRUCTURED\s*NOTES)`. -/
def notesCore (s : List Char) : Bool :=
  let s := skipWS s
  tokSeqCI [tk "section", tk "1", tk ":", tk "structured", tk "notes"] s ||
  tokSeqCI [tk "1.", tk "structured", tk "notes"] s

/-- Core of the `roadmap` pattern. -/
def roadmapCore (s : List Char) : Bool :=
  let s := skipWS s
  tokSeqCI [tk "section", tk "2", tk ":", tk "learning", tk "roadmap"] s ||
  tokSeqCI [tk "2.", tk "learning", tk "roadmap"] s

/-- Core of the `resources` pattern. -/
def resourcesCore (s : List Char) : Bool :=
  let s := skipWS s
  tokSeqCI [tk "section", tk "3", tk ":", tk "important", tk "resources"] s ||
  tokSeqCI [tk "3.", tk "important", tk "resources"] s

/-- Core of the `qbank` pattern (six alternatives, in source order). -/
def qbankCore (s : List Char) : Bool :=
  let s := skipWS s
  tokSeqCI [tk "section", tk "4", tk ":", tk "question", tk "bank", tk "with", tk "answers"] s ||
  tokSeqCI [tk "4.", tk "question", tk "bank", tk "with", tk "answers"] s ||
  tokSeqCI [tk "4.", tk "question", tk "bank"] s ||
  tokSeqCI [tk "section", tk "4", tk ":", tk "question", tk "bank"] s ||
  tokSeqCI [tk "section", tk "1", tk ":", tk "questions", tk "only", tk "(for", tk "students)"] s ||
  tokSeqCI [tk "section", tk "1", tk ":", tk "question", tk "paper"] s

/-- Core of the dedicated `qbank_fallback` pattern (its two alternatives are
the last two alternatives of `qbankCore`). -/
def qbankFallbackCore (s : List Char) : Bool :=
  let s := skipWS s
  tokSeqCI [tk "section", tk "1", tk ":", tk "questions", tk "only", tk "(for", tk "students)"] s ||
  tokSeqCI [tk "section", tk "1", tk ":", tk "question", tk "paper"] s

/-- Scan for the `\n`-anchored branch from index `i` on. -/
def searchAnchoredAux (core : List Char → Bool) : List Char → Nat → Option Nat
  | [], _ => none
  | c :: cs, i =>
    if c = '\n' ∧ core cs then some i else searchAnchoredAux core cs (i + 1)

/-- Python `re.search` for a pattern `(?:^|\n)CORE`: leftmost match start. -/
def searchAnchored (core : List Char → Bool) (s : List Char) : Option Nat :=
  if core s then some 0 else searchAnchoredAux core s 0

/-- The `sections` dict: the four fixed keys. -/
structure SectionMap where
  notes : String
  roadmap : String
  resources : String
  qbank : String
deriving DecidableEq

/-- The four section keys. -/
inductive SectKey where
  | notes | roadmap | resources | qbank
deriving DecidableEq

/-- Assignment `sections[name] = value`. -/
def setSection (m : SectionMap) : SectKey → String → SectionMap
  | .notes, v => { m with notes := v }
  | .roadmap, v => { m with roadmap := v }
  | .resources, v => { m with resources := v }
  | .qbank, v => { m with qbank := v }

/-- The `section_positions` dict as an ordered list: for each key in source order,
the leftmost match start of its pattern, keys with no match dropped. -/
def foundSections (n : List Char) : List (SectKey × Nat) :=
  ([(SectKey.notes, searchAnchored notesCore n),
    (SectKey.roadmap, searchAnchored roadmapCore n),
    (SectKey.resources, searchAnchored resourcesCore n),
    (SectKey.qbank, searchAnchored qbankCore n)]).filterMap
    (fun p => p.2.map (fun i => (p.1, i)))

/-- Python slice `n[s:e]`. -/
def pySlice (n : List Char) (s e : Nat) : List Char := (n.drop s).take (e - s)

/-- The `for idx, (name, start_idx) in enumerate(ordered_sections)` loop:
the span of each found section runs from its own start to the next found start
(end of text for the last), stripped. -/
def assignSpans (n : List Char) : List (SectKey × Nat) → SectionMap → SectionMap
  | [], m => m
  | (k, s) :: rest, m =>
    let e := match rest with
      | [] => n.length
      | (_, s2) :: _ => s2
    assignSpans n rest (setSection m k ⟨pyStripL (pySlice n s e)⟩)

/-- The spans produced from the sorted marker positions, before the
notes-recovery overwrite (`sorted(...)` is stable, `mergeSort` likewise). -/
def computeSpans (n : List Char) : SectionMap :=
  assignSpans n ((foundSections n).mergeSort (fun a b => a.2 ≤ b.2)) ⟨"", "", "", ""⟩

/-- The `if section_positions: ... else ...` block, including the notes
recovery overwrite. -/
def splitCore (n : List Char) : SectionMap :=
  if foundSections n = [] then ⟨⟨n⟩, "", "", ""⟩
  else
    let m := computeSpans n
    if m.notes = "" then { m with notes := ⟨n⟩ } else m

/-- The whole segmenter: normalize, slice by markers, then the dedicated
`qbank_fallback` search when the qbank span is still empty. -/
def splitSections (content : String) : SectionMap :=
  let n := normalizedOf content
  let m := splitCore n
  if m.qbank = "" then
    match searchAnchored qbankFallbackCore n with
    | some i => { m with qbank := ⟨pyStripL (n.drop i)⟩ }
    | none => m
  else m

unseal List.merge List.mergeSort in
example : splitSections "hello world" = ⟨"hello world", "", "", ""⟩ := rfl

unseal List.merge List.mergeSort in
example :
    splitSections
      "SECTION 1: STRUCTURED NOTES\nA\nSECTION 2: LEARNING ROADMAP\nB\nSECTION 3: IMPORTANT RESOURCES\nC\nSECTION 4: QUESTION BANK WITH ANSWERS\nD"
    = ⟨"SECTION 1: STRUCTURED NOTES\nA", "SECTION 2: LEARNING ROADMAP\nB",
       "SECTION 3: IMPORTANT RESOURCES\nC", "SECTION 4: QUESTION BANK WITH ANSWERS\nD"⟩ := rfl

unseal List.merge List.mergeSort in
example : splitSections "SECTION 2: LEARNING ROADMAP\nsteps"
    = ⟨"SECTION 2: LEARNING ROADMAP\nsteps", "SECTION 2: LEARNING ROADMAP\nsteps", "", ""⟩ := rfl

/-! ## The Question/Answer Splitter

Embeds the `questions_only` / `answers_only` extraction ladder of the source.
The four regexes involved are reproduced as dedicated matchers:

* `qpaperCore` — the unanchored question-paper preamble search;
* `sec1SubLen`/`sec2SubLen` — the `re.sub(r"SECTION\s*1.*?(?:QUESTIONS?:|$)")`
  and `re.sub(r"SECTION\s*2.*?(?:ANSWER\s*KEY:?|$)")` cleanups (DOTALL, all
  occurrences, lazy middle, `$` also matching before one trailing newline);
* `akSearchLen` — `re.search(r"ANSWER\s*KEY\s*:?")`;
* `findAnswerBlocks`/`findQuestionBlocks` — the two `re.findall` block
  extractors with their zero-width lookaheads.
-/

/-- Core of the question-paper preamble pattern (three alternatives). -/
def qpaperCore (s : List Char) : Bool :=
  tokSeqCI [tk "section", tk "1", tk ":", tk "questions", tk "only"] s ||
  tokSeqCI [tk "section", tk "1", tk ":", tk "question", tk "paper"] s ||
  tokSeqCI [tk "questions", tk "only", tk "(for", tk "students)"] s

/-- Python `re.search` without anchor: leftmost index whose suffix matches. -/
def searchPlainAux (core : List Char → Bool) : List Char → Nat → Option Nat
  | s, i =>
    if core s then some i
    else
      match s with
      | [] => none
      | _ :: cs => searchPlainAux core cs (i + 1)

/-- Leftmost match start of an unanchored pattern. -/
def searchPlain (core : List Char → Bool) (s : List Char) : Option Nat :=
  searchPlainAux core s 0

/-- Python `qbank.replace("\r", "")`. -/
def qbankNormalized (qbank : String) : List Char :=
  qbank.data.filter (fun c => c ≠ '\r')

/-- Value of `qbank_text` after `replace("\r", "")` and the preamble trim
(`qbank_text[qpaper_start.start():]`). -/
def qbankTextOf (qbank : String) : List Char :=
  let t0 := qbankNormalized qbank
  match searchPlain qpaperCore t0 with
  | some i => t0.drop i
  | none => t0

/-- Regex `QUESTIONS?:` (case-insensitive), returning the matched length:
greedy optional `S` with the one-character backtrack Python performs. -/
def qCueLen (s : List Char) : Option Nat :=
  match matchLitCI (tk "question") s with
  | none => none
  | some r =>
    match r with
    | ':' :: _ => some 9
    | c :: ':' :: _ => if lowerChar c = 's' then some 10 else none
    | _ => none

/-- Regex `ANSWER\s*KEY:?` (case-insensitive), returning the matched length. -/
def aCueLen (s : List Char) : Option Nat :=
  match matchLitCI (tk "answer") s with
  | none => none
  | some r1 =>
    let r2 := skipWS r1
    match matchLitCI (tk "key") r2 with
    | none => none
    | some r3 =>
      match r3 with
      | ':' :: r4 => some (s.length - r4.length)
      | _ => some (s.length - r3.length)

/-- Lazy `.*?(?:CUE|$)` under DOTALL: number of characters from the current
position to the end of the whole match — the earliest position where the cue
matches (cue length included), else end of string, `$` also matching just
before one trailing newline. -/
def lazyToCue (cue : List Char → Option Nat) : List Char → Nat
  | [] => 0
  | c :: cs =>
    match cue (c :: cs) with
    | some L => L
    | none => if c = '\n' ∧ cs = [] then 0 else 1 + lazyToCue cue cs

/-- Full-match length of `SECTION\s*1.*?(?:QUESTIONS?:|$)` at this position. -/
def sec1SubLen (s : List Char) : Option Nat :=
  match matchLitCI (tk "section") s with
  | none => none
  | some r1 =>
    match skipWS r1 with
    | '1' :: r3 => some (s.length - r3.length + lazyToCue qCueLen r3)
    | _ => none

/-- Full-match length of `SECTION\s*2.*?(?:ANSWER\s*KEY:?|$)` at this position. -/
def sec2SubLen (s : List Char) : Option Nat :=
  match matchLitCI (tk "section") s with
  | none => none
  | some r1 =>
    match skipWS r1 with
    | '2' :: r3 => some (s.length - r3.length + lazyToCue aCueLen r3)
    | _ => none

/-- Python `re.sub(pattern, "", s)` worker: remove every non-overlapping match,
scanning left to right.  Each step consumes at least one character, so fuel
equal to the input length always suffices; the fuel-exhausted branch is
unreachable and only keeps the recursion structural. -/
def subAllAux (m : List Char → Option Nat) : Nat → List Char → List Char
  | 0, s => s
  | _, [] => []
  | fuel + 1, c :: cs =>
    match m (c :: cs) with
    | some (L + 1) => subAllAux m fuel (cs.drop L)
    | _ => c :: subAllAux m fuel cs

/-- Python `re.sub(pattern, "", s)`: remove every non-overlapping match. -/
def subAll (m : List Char → Option Nat) (s : List Char) : List Char :=
  subAllAux m s.length s

/-- Regex `ANSWER\s*KEY\s*:?`, returning the matched length. -/
def akSearchLen (s : List Char) : Option Nat :=
  match matchLitCI (tk "answer") s with
  | none => none
  | some r1 =>
    match matchLitCI (tk "key") (skipWS r1) with
    | none => none
    | some r3 =>
      match skipWS r3 with
      | ':' :: r4 => some (s.length - r4.length)
      | r4 => some (s.length - r4.length)

/-- Python `re.search` for a length-reporting matcher: leftmost `(start, length)`. -/
def searchSpanAux (m : List Char → Option Nat) : List Char → Nat → Option (Nat × Nat)
  | s, i =>
    match m s with
    | some L => some (i, L)
    | none =>
      match s with
      | [] => none
      | _ :: cs => searchSpanAux m cs (i + 1)

/-- Leftmost match `(start, length)` of an unanchored length matcher. -/
def searchSpan (m : List Char → Option Nat) (s : List Char) : Option (Nat × Nat) :=
  searchSpanAux m s 0

/-- Regex `\d+`: consume at least one digit, greedily. -/
def digits1 : List Char → Option (List Char)
  | [] => none
  | c :: cs => if c.isDigit then some (cs.dropWhile Char.isDigit) else none

/-- The `[:.)-]` character class. -/
def delimChar (c : Char) : Bool := c = ':' || c = '.' || c = ')' || c = '-'

/-- Regex `Answer\s*\d+\s*[:.)-]\s*` — the answer-block header including its
trailing `\s*`; returns the rest (the capture start). -/
def ansHeadRest (s : List Char) : Option (List Char) :=
  match matchLitCI (tk "answer") s with
  | none => none
  | some r1 =>
    match digits1 (skipWS r1) with
    | none => none
    | some r2 =>
      match skipWS r2 with
      | c :: r3 => if delimChar c then some (skipWS r3) else none
      | [] => none

/-- Regex `Answer\s*\d+\s*[:.)-]` as a Boolean (used inside the lookahead). -/
def ansHeadCore (s : List Char) : Bool :=
  match matchLitCI (tk "answer") s with
  | none => false
  | some r1 =>
    match digits1 (skipWS r1) with
    | none => false
    | some r2 =>
      match skipWS r2 with
      | c :: _ => delimChar c
      | [] => false

/-- The zero-width lookahead `(?=\n\s*Answer\s*\d+\s*[:.)-])`. -/
def ansLook (s : List Char) : Bool :=
  match s with
  | '\n' :: r => ansHeadCore (skipWS r)
  | _ => false

/-- Lazy capture `(.*?)` up to the first position where the lookahead holds,
or to `\Z`; returns `(capture, rest-from-lookahead)`. -/
def captureTo (look : List Char → Bool) : List Char → List Char × List Char
  | [] => ([], [])
  | c :: cs =>
    if look (c :: cs) then ([], c :: cs)
    else
      let p := captureTo look cs
      (c :: p.1, p.2)

/-- Find the next answer-block match at or after this position; returns the
captured group and the input remaining after the match end. -/
def scanAnsFrom : List Char → Option (List Char × List Char)
  | [] => none
  | c :: cs =>
    match ansHeadRest (c :: cs) with
    | some afterHead => some (captureTo ansLook afterHead)
    | none => scanAnsFrom cs

/-- Regex `\([^\n]*\)` cannot cross a newline: the segment searched for `)`. -/
def parenIdxs : List Char → Nat → List Nat
  | [], _ => []
  | c :: cs, i => if c = ')' then i :: parenIdxs cs (i + 1) else parenIdxs cs (i + 1)

/-- After a candidate `)` at the given offset: `\s*[:.)-]\s*`, returning the
rest (capture start). -/
def qAfterParen (rest : List Char) : Option (List Char) :=
  match skipWS rest with
  | c :: r3 => if delimChar c then some (skipWS r3) else none
  | [] => none

/-- Greedy `[^\n]*\)` with backtracking: try each `)` of the line segment
from the last to the first, continuing with `\s*[:.)-]\s*`. -/
def tryParens (s : List Char) : List Nat → Option (List Char)
  | [] => none
  | j :: js =>
    match qAfterParen (s.drop (j + 1)) with
    | some r => some r
    | none => tryParens s js

/-- Regex `Question\s*\d+\s*\([^\n]*\)\s*[:.)-]\s*` — the question-block header
including its trailing `\s*`; returns the rest (the capture start). -/
def qHeadRest (s : List Char) : Option (List Char) :=
  match matchLitCI (tk "question") s with
  | none => none
  | some r1 =>
    match digits1 (skipWS r1) with
    | none => none
    | some r2 =>
      match skipWS r2 with
      | '(' :: r3 => tryParens r3 ((parenIdxs (r3.takeWhile (fun c => c ≠ '\n')) 0).reverse)
      | _ => none

/-- Regex `Question\s*\d+\s*\(` as a Boolean (used inside the lookahead). -/
def qLookCore (s : List Char) : Bool :=
  match matchLitCI (tk "question") s with
  | none => false
  | some r1 =>
    match digits1 (skipWS r1) with
    | none => false
    | some r2 =>
      match skipWS r2 with
      | '(' :: _ => true
      | _ => false

/-- The zero-width lookahead `(?=\n\s*Question\s*\d+\s*\()`. -/
def qLook (s : List Char) : Bool :=
  match s with
  | '\n' :: r => qLookCore (skipWS r)
  | _ => false

/-- Find the next question-block match at or after this position. -/
def scanQFrom : List Char → Option (List Char × List Char)
  | [] => none
  | c :: cs =>
    match qHeadRest (c :: cs) with
    | some afterHead => some (captureTo qLook afterHead)
    | none => scanQFrom cs

/-- Python `re.findall` driver.  Every match consumes at least the nonempty header,
so `s.length + 1` units of fuel always suffice. -/
def findBlocksAux (scan : List Char → Option (List Char × List Char)) :
    Nat → List Char → List (List Char)
  | 0, _ => []
  | fuel + 1, s =>
    match scan s with
    | none => []
    | some (cap, rest) => cap :: findBlocksAux scan fuel rest

/-- The `Answer N ...` block extractor. -/
def findAnswerBlocks (s : List Char) : List (List Char) :=
  findBlocksAux scanAnsFrom (s.length + 1) s

/-- The `Question N (...) ...` block extractor. -/
def findQuestionBlocks (s : List Char) : List (List Char) :=
  findBlocksAux scanQFrom (s.length + 1) s

/-- Python `sep.join(list)` on character lists. -/
def intercalateL (sep : List Char) : List (List Char) → List Char
  | [] => []
  | [x] => x
  | x :: xs => x ++ sep ++ intercalateL sep xs

/-- Python `"\n\n".join(b.strip() for b in blocks).strip()`. -/
def joinBlocks (bs : List (List Char)) : List Char :=
  pyStripL (intercalateL (tk "\n\n") (bs.map pyStripL))

/-- The student-facing / teacher-facing views derived from the qbank span. -/
structure QAView where
  questions_text : String
  answers_text : String
deriving DecidableEq

/-- The final `if not answers_only and not questions_only` fallback of the
splitter: keep the extracted sides unless both are empty, in which case the
whole span becomes the question text and the answer text is the literal
sentinel. -/
def qaFinalize (t q1 a1 : List Char) : List Char × List Char :=
  if a1 = [] ∧ q1 = [] then (t, tk "No answer key found") else (q1, a1)

/-- The extraction ladder of the no-`SECTION 2` branch: the `ANSWER KEY`
split, then the two block extractors, then the final sentinel fallback.
Returns `(questions_only, answers_only)`. -/
def qaNoSec2 (t : List Char) : List Char × List Char :=
  let p0 := match searchSpan akSearchLen t with
    | some (s, L) => (pyStripL (t.take s), pyStripL (t.drop (s + L)))
    | none => (([] : List Char), ([] : List Char))
  let a1 := if p0.2 = [] then
      (let bs := findAnswerBlocks t
       if bs = [] then p0.2 else joinBlocks bs)
    else p0.2
  let q1 := if p0.1 = [] then
      (let bs := findQuestionBlocks t
       if bs = [] then p0.1 else joinBlocks bs)
    else p0.1
  qaFinalize t q1 a1

/-- The whole Question/Answer Splitter. -/
def qaSplit (qbank : String) : QAView :=
  let t := qbankTextOf qbank
  match findSub? t (tk "SECTION 2") with
  | some idx =>
    let q0 := pyStripL (t.take idx)
    let a0 := pyStripL (t.drop idx)
    ⟨⟨pyStripL (subAll sec1SubLen q0)⟩, ⟨pyStripL (subAll sec2SubLen a0)⟩⟩
  | none =>
    let p := qaNoSec2 t
    ⟨⟨p.1⟩, ⟨p.2⟩⟩

example : qaSplit "hello" = ⟨"hello", "No answer key found"⟩ := rfl
example : qaSplit "SECTION 1: QUESTION PAPER\nSECTION 2" = ⟨"", ""⟩ := rfl
example : qaSplit "SECTION 2" = ⟨"", ""⟩ := rfl
example :
    qaSplit "SECTION 1: QUESTIONS ONLY (FOR STUDENTS)\nQUESTIONS:\nQuestion 1 (2 Marks): What?\nSECTION 2: ANSWER KEY (FOR TEACHERS)\nANSWER KEY:\nAnswer 1: Because."
    = ⟨"Question 1 (2 Marks): What?", "(FOR TEACHERS)\nANSWER KEY:\nAnswer 1: Because."⟩ := rfl
example :
    qaSplit "intro\nQUESTIONS:\nstuff\nANSWER KEY:\nAnswer 1: foo"
    = ⟨"intro\nQUESTIONS:\nstuff", "Answer 1: foo"⟩ := rfl
example :
    qaSplit "Answer 1: foo\nbar\nAnswer 2) baz" = ⟨"", "foo\nbar\n\nbaz"⟩ := rfl

/-! ## Question totals and the produced document set -/

/-- The active-custom-question comprehension run at generation time: keep the
rows with non-blank text, stripping the text and coercing an invalid
`bloom_level` to `"Understanding"`. -/
def active_custom_questions (qs : List CustomQuestion) : List CustomQuestion :=
  (qs.filter (fun q => pyStrip q.text ≠ "")).map
    (fun q => ⟨pyStrip q.text, q.marks,
               if q.bloom_level ∈ BLOOM_LEVELS then q.bloom_level else "Understanding"⟩)

/-- Python `sum(qp["count"] for qp in question_patterns)`. -/
def generated_questions_count (patterns : List QuestionPattern) : Nat :=
  patterns.foldl (fun s q => s + q.count) 0

/-- Count `total_questions = generated_questions_count + custom_questions_count`. -/
def total_questions (patterns : List QuestionPattern) (qs : List CustomQuestion) : Nat :=
  generated_questions_count patterns + (active_custom_questions qs).length

/-- The keys of the `pdfs` dict: the `if total_questions > 0` branch includes
`04_QA`, the else branch omits it. -/
def pdfKeys (patterns : List QuestionPattern) (qs : List CustomQuestion) : List String :=
  if total_questions patterns qs > 0 then
    ["01_Notes", "02_Roadmap", "03_Resources", "04_QA"]
  else
    ["01_Notes", "02_Roadmap", "03_Resources"]

/-- Python `a or b` on strings: `a` when non-empty, else `b`. -/
def pyOrStr (a b : String) : String := if a = "" then b else a

/-- The text handed to the Question/Answer Splitter:
`qbank = sections["qbank"] or normalized_content`. -/
def qbankSource (content : String) : String :=
  pyOrStr (splitSections content).qbank ⟨normalizedOf content⟩

/-! ## `pdf_helper.py`: the Document Formatter line grammar

`create_pdf` classifies each (stripped) line through a fixed priority chain;
`classifyLine` returns which rule fired and the visible text the rule emits.
-/

/-- One classified line: rule number and visible text, in source order. -/
inductive LineRender where
  | blank
  | heading1 (text : String)
  | heading2 (text : String)
  | sectionLabel (text : String)
  | rule
  | qaLabel (text : String)
  | bold (text : String)
  | bullet (text : String)
  | numbered (text : String)
  | para (text : String)
deriving DecidableEq

/-- The apostrophe character, written via its code point. -/
def aposChar : Char := Char.ofNat 39

/-- Regex for the Bloom label (case-insensitive): `BLOOM`, an optional
apostrophe (code point 39), an optional `S`, then `TAXONOMY` and
`DISTRIBUTION` separated by `\s+`.  Neither optional character can be
whitespace, so the greedy options are deterministic. -/
def bloomLabelMatch (s : List Char) : Option (List Char) :=
  match matchLitCI (tk "bloom") s with
  | none => none
  | some r1 =>
    let r2 := match r1 with
      | c :: r => if c = aposChar then r else r1
      | [] => r1
    let r3 := match r2 with
      | c :: r => if lowerChar c = 's' then r else r2
      | [] => r2
    match r3 with
    | c :: r4 =>
      if isPySpace c then
        match matchLitCI (tk "taxonomy") (skipWS r4) with
        | none => none
        | some r5 =>
          match r5 with
          | c2 :: r6 =>
            if isPySpace c2 then matchLitCI (tk "distribution") (skipWS r6) else none
          | [] => none
      else none
    | [] => none

/-- Regex `QUESTION\s+PAPER` / `SECTION\s+\d+` style tail with `\s+`. -/
def litSpaceLit (w1 w2 : String) (s : List Char) : Option (List Char) :=
  match matchLitCI (tk w1) s with
  | none => none
  | some r1 =>
    match r1 with
    | c :: r2 => if isPySpace c then matchLitCI (tk w2) (skipWS r2) else none
    | [] => none

/-- Regex `SECTION\s+\d+`. -/
def sectionNumMatch (s : List Char) : Option (List Char) :=
  match matchLitCI (tk "section") s with
  | none => none
  | some r1 =>
    match r1 with
    | c :: r2 => if isPySpace c then digits1 (skipWS r2) else none
    | [] => none

/-- Tail `\s*:?$` of the section-label regex (the line carries no trailing
newline, having been produced by `split("\n")` and `strip()`). -/
def labelTail (s : List Char) : Bool :=
  match skipWS s with
  | [] => true
  | [c] => c = ':'
  | _ => false

/-- Rule 4: the anchored case-insensitive section-label regex of the source,
whose alternatives are INSTRUCTIONS, QUESTIONS, ANSWER KEY,
MARK DISTRIBUTION, the Bloom label of `bloomLabelMatch`, QUESTION PAPER and
SECTION followed by digits, with the `\s*:?$` tail. -/
def sectionLabelMatch (line : List Char) : Bool :=
  (match matchLitCI (tk "instructions") line with
   | some r => labelTail r
   | none => false) ||
  (match matchLitCI (tk "questions") line with
   | some r => labelTail r
   | none => false) ||
  (match matchLitCI (tk "answer key") line with
   | some r => labelTail r
   | none => false) ||
  (match matchLitCI (tk "mark distribution") line with
   | some r => labelTail r
   | none => false) ||
  (match bloomLabelMatch line with
   | some r => labelTail r
   | none => false) ||
  (match litSpaceLit "question" "paper" line with
   | some r => labelTail r
   | none => false) ||
  (match sectionNumMatch line with
   | some r => labelTail r
   | none => false)

/-- Rule 5: the separator regex — three or more `=` or `-` characters and
nothing else on the line. -/
def separatorMatch (line : List Char) : Bool :=
  line.all (fun c => c = '=' || c = '-') && decide (3 ≤ line.length)

/-- Python word character (`\w`, ASCII scope). -/
def isWordChar (c : Char) : Bool :=
  c.isAlpha || c.isDigit || c = '_'

/-- Rule 6: `re.match(r"^(Question\s*\d+|Answer\s*\d+)\b", line, re.IGNORECASE)`.
After the greedy `\d+` the boundary `\b` requires the next character to be a
non-word character (or the end); backtracking into `\d+` cannot help since a
digit is a word character. -/
def qaLabelMatch (line : List Char) : Bool :=
  let tailOk : List Char → Bool := fun r =>
    match digits1 r with
    | none => false
    | some r2 =>
      match r2 with
      | [] => true
      | c :: _ => !(isWordChar c)
  (match matchLitCI (tk "question") line with
   | some r => tailOk (skipWS r)
   | none => false) ||
  (match matchLitCI (tk "answer") line with
   | some r => tailOk (skipWS r)
   | none => false)

/-- Python `line.replace("**", "")`: non-overlapping left-to-right removal. -/
def stripBoldMarkers : List Char → List Char
  | '*' :: '*' :: rest => stripBoldMarkers rest
  | c :: rest => c :: stripBoldMarkers rest
  | [] => []

/-- Rule 9: the numbered-list regex — leading digits then a dot or a closing
parenthesis. -/
def numberedMatch (line : List Char) : Bool :=
  match digits1 line with
  | none => false
  | some r =>
    match r with
    | c :: _ => c = '.' || c = ')'
    | [] => false

/-- The per-line classification chain of `create_pdf`, in source order. -/
def classifyLine (rawLine : String) : LineRender :=
  let line := pyStripL rawLine.data
  if line = [] then .blank
  else if startsWithL line (tk "## ") then .heading1 ⟨pyStripL (line.drop 3)⟩
  else if startsWithL line (tk "### ") then .heading2 ⟨pyStripL (line.drop 4)⟩
  else if sectionLabelMatch line then .sectionLabel ⟨pyUpperL line⟩
  else if separatorMatch line then .rule
  else if qaLabelMatch line then .qaLabel ⟨line⟩
  else if hasSubstr line (tk "**") then .bold ⟨stripBoldMarkers line⟩
  else if startsWithL line (tk "- ") || startsWithL line (tk "* ") then
    .bullet ⟨pyStripL (line.drop 2)⟩
  else if numberedMatch line then .numbered ⟨line⟩
  else .para ⟨line⟩

example : classifyLine "  " = .blank := rfl
example : classifyLine "## Heading" = .heading1 "Heading" := rfl
example : classifyLine "ANSWER KEY:" = .sectionLabel "ANSWER KEY:" := rfl
example : classifyLine "Blooms Taxonomy Distribution" = .sectionLabel "BLOOMS TAXONOMY DISTRIBUTION" := rfl
example : classifyLine "=====" = .rule := rfl
example : classifyLine "Question 12 (2 Marks): x" = .qaLabel "Question 12 (2 Marks): x" := rfl
example : classifyLine "**Important:** review this" = .bold "Important: review this" := rfl
example : classifyLine "- item" = .bullet "item" := rfl
example : classifyLine "3) step" = .numbered "3) step" := rfl
example : classifyLine "plain text" = .para "plain text" := rfl
example : classifyLine "Question12x" = .para "Question12x" := rfl

/-! ## Lemmas about the Completion Service loop -/

/-- A retryable, non-final attempt just moves on to the next attempt. -/
theorem runLoop_cons_retryable (events : Nat → RespEvent) (retries a : Nat)
    (rest : List Nat) (h1 : retryableEvent (events a) = true) (h2 : a < retries - 1) :
    runLoop events retries (a :: rest) = runLoop events retries rest := by
  cases hev : events a
  case ok t => simp [retryableEvent, hev] at h1
  case badParse => simp [retryableEvent, hev] at h1
  case readTimeout => simp [runLoop, hev, h2]
  case connErr => simp [runLoop, hev, h2]
  case reqErr m => simp [runLoop, hev, h2]
  case http code body =>
    simp only [retryableEvent, hev, Bool.and_eq_true, Bool.not_eq_true',
      decide_eq_false_iff_not] at h1
    obtain ⟨hc400, hc403⟩ := h1
    by_cases h429 : code = 429
    · simp [runLoop, hev, h429, h2]
    · simp [runLoop, hev, h429, hc400, hc403, h2]

/-- If the first `k` attempts are all retryable, the loop reaches attempt `k`. -/
theorem run_reaches (events : Nat → RespEvent) (retries k : Nat) (hk : k < retries)
    (hr : ∀ j, j < k → retryableEvent (events j) = true) :
    GeminiLLM.run events retries = runLoop events retries (List.range' k (retries - k)) := by
  induction k with
  | zero =>
    simp [GeminiLLM.run, List.range_eq_range']
  | succ k ih =>
    have hk' : k < retries := Nat.lt_of_succ_lt hk
    rw [ih hk' (fun j hj => hr j (Nat.lt_succ_of_lt hj))]
    have hsplit : retries - k = (retries - (k + 1)) + 1 := by omega
    rw [hsplit, List.range'_succ]
    exact runLoop_cons_retryable events retries k _ (hr k (Nat.lt_succ_self k)) (by omega)

/-- Claim C7: a 400/403 status, or a parsed 200 response lacking the
candidates/content/parts structure, makes `GeminiLLM.run` raise at once:
whenever the loop reaches such an attempt, the run result is that error, with
no dependence on how many attempts remain. -/
theorem run_immediate_failure (events : Nat → RespEvent) (retries k : Nat)
    (e : GemError) (hk : k < retries)
    (hr : ∀ j, j < k → retryableEvent (events j) = true)
    (hf : immediateFailure (events k) = some e) :
    GeminiLLM.run events retries = .error e := by
  rw [run_reaches events retries k hk hr]
  have hsplit : retries - k = (retries - k - 1) + 1 := by omega
  rw [hsplit, List.range'_succ]
  cases hev : events k
  case ok t => simp [immediateFailure, hev] at hf
  case readTimeout => simp [immediateFailure, hev] at hf
  case connErr => simp [immediateFailure, hev] at hf
  case reqErr m => simp [immediateFailure, hev] at hf
  case badParse =>
    simp only [immediateFailure, hev, Option.some.injEq] at hf
    simp [runLoop, hev, ← hf]
  case http code body =>
    simp only [immediateFailure, hev] at hf
    split at hf
    case isTrue hcond =>
      obtain ⟨h429, h4003⟩ := hcond
      simp only [Option.some.injEq] at hf
      simp [runLoop, hev, h429, h4003, ← hf]
    case isFalse hcond => simp at hf

/-- Witness for C7 at a concrete input: attempt 0 answers 400, and the run
fails at once with the invalid-request error. -/
theorem run_immediate_failure_witness :
    (0 : Nat) < 3 ∧
      GeminiLLM.run (fun _ => .http 400 "bad request") 3
        = .error (.invalidRequest 400) :=
  ⟨by decide,
   run_immediate_failure (fun _ => .http 400 "bad request") 3 0 (.invalidRequest 400)
     (by decide) (fun j hj => absurd hj (Nat.not_lt_zero j)) rfl⟩

/-- Claim C2: with `retries = 3` and a 429 on every attempt, `GeminiLLM.run`
does not return any sentinel string — it raises the quota-exhausted
`RuntimeError` (there is no "return sentinel" configuration flag anywhere in
the source). -/
theorem run_429_exhaustion_raises :
    GeminiLLM.run (fun _ => .http 429 "") 3 = .error .quotaExhausted := rfl

/-- A successful `runLoop` result is the verbatim text of a 200 response of
one of the attempts processed. -/
theorem runLoop_ok_mem (events : Nat → RespEvent) (retries : Nat)
    (l : List Nat) (s : String) :
    runLoop events retries l = .ok s → ∃ a ∈ l, events a = RespEvent.ok s := by
  induction l with
  | nil => intro h; simp [runLoop] at h
  | cons a rest ih =>
    intro h
    cases hev : events a
    case ok t =>
      simp only [runLoop, hev, Except.ok.injEq] at h
      exact ⟨a, List.mem_cons_self a rest, by rw [hev, h]⟩
    case badParse => simp [runLoop, hev] at h
    case readTimeout =>
      simp only [runLoop, hev] at h
      split at h
      · obtain ⟨b, hb, he⟩ := ih h
        exact ⟨b, List.mem_cons_of_mem a hb, he⟩
      · simp at h
    case connErr =>
      simp only [runLoop, hev] at h
      split at h
      · obtain ⟨b, hb, he⟩ := ih h
        exact ⟨b, List.mem_cons_of_mem a hb, he⟩
      · simp at h
    case reqErr m =>
      simp only [runLoop, hev] at h
      split at h
      · obtain ⟨b, hb, he⟩ := ih h
        exact ⟨b, List.mem_cons_of_mem a hb, he⟩
      · simp at h
    case http code body =>
      simp only [runLoop, hev] at h
      split at h
      · split at h
        · obtain ⟨b, hb, he⟩ := ih h
          exact ⟨b, List.mem_cons_of_mem a hb, he⟩
        · simp at h
      · split at h
        · simp at h
        · split at h
          · obtain ⟨b, hb, he⟩ := ih h
            exact ⟨b, List.mem_cons_of_mem a hb, he⟩
          · simp at h

/-- Claim C10 (amended): every string `GeminiLLM.run` returns normally is the
verbatim text part of some status-200 response among the attempts, so the
`is_quota_exhausted` guard after a successful run fires only when a 200
response itself carried sentinel-prefixed text. -/
theorem run_ok_is_verbatim_200_text (events : Nat → RespEvent) (retries : Nat)
    (s : String) (h : GeminiLLM.run events retries = .ok s) :
    (∃ k, k < retries ∧ events k = RespEvent.ok s) ∧
      (is_quota_exhausted s = true →
        ∃ k, k < retries ∧ events k = RespEvent.ok s ∧ is_quota_exhausted s = true) := by
  obtain ⟨a, ha, he⟩ := runLoop_ok_mem events retries (List.range retries) s h
  have halt : a < retries := List.mem_range.mp ha
  exact ⟨⟨a, halt, he⟩, fun hq => ⟨a, halt, he, hq⟩⟩

/-- Witness for C10 at a concrete input. -/
theorem run_ok_is_verbatim_200_text_witness :
    GeminiLLM.run (fun _ => RespEvent.ok "hi") 1 = .ok "hi" ∧
      ((∃ k, k < 1 ∧ (fun _ => RespEvent.ok "hi") k = RespEvent.ok "hi") ∧
        (is_quota_exhausted "hi" = true →
          ∃ k, k < 1 ∧ (fun _ => RespEvent.ok "hi") k = RespEvent.ok "hi" ∧
            is_quota_exhausted "hi" = true)) :=
  ⟨rfl, run_ok_is_verbatim_200_text (fun _ => RespEvent.ok "hi") 1 "hi" rfl⟩

/-- Counterexample to C10 as stated: when the text of a 200 response itself begins
with `QUOTA_EXHAUSTED`, `run` returns it verbatim, so "run never returns a
string beginning with QUOTA_EXHAUSTED" is false and the guarded branch is
reachable. -/
theorem run_returns_sentinel_prefixed_text :
    GeminiLLM.run (fun _ => RespEvent.ok "QUOTA_EXHAUSTED") 3
        = .ok "QUOTA_EXHAUSTED" ∧
      is_quota_exhausted "QUOTA_EXHAUSTED" = true :=
  ⟨rfl, rfl⟩

/-! ## The Document Formatter claim -/

/-- Claim C9: a line that reaches rule 7 — the stripped line is non-empty, no
rule among 2–6 fires, and it contains a `**` marker — is rendered bold with
every `**` occurrence removed from the visible text. -/
theorem classify_rule7_bold (line : String)
    (h1 : pyStripL line.data ≠ [])
    (h2 : startsWithL (pyStripL line.data) (tk "## ") = false)
    (h3 : startsWithL (pyStripL line.data) (tk "### ") = false)
    (h4 : sectionLabelMatch (pyStripL line.data) = false)
    (h5 : separatorMatch (pyStripL line.data) = false)
    (h6 : qaLabelMatch (pyStripL line.data) = false)
    (h7 : hasSubstr (pyStripL line.data) (tk "**") = true) :
    classifyLine line = .bold ⟨stripBoldMarkers (pyStripL line.data)⟩ := by
  simp [classifyLine, h1, h2, h3, h4, h5, h6, h7]

/-- Witness for C9 at the concrete line of the claim. -/
theorem classify_rule7_bold_witness :
    hasSubstr (pyStripL (tk "**Important:** review this")) (tk "**") = true ∧
      classifyLine "**Important:** review this" = .bold "Important: review this" :=
  ⟨by decide,
   (classify_rule7_bold "**Important:** review this" (by decide) (by decide) (by decide)
       (by decide) (by decide) (by decide) (by decide)).trans (by decide)⟩

/-! ## The Response Segmenter claims -/

/-- Monotonicity of the anchored scan: a pattern implying another cannot
match where the other does not. -/
theorem searchAnchoredAux_mono (c1 c2 : List Char → Bool)
    (hm : ∀ s, c1 s = true → c2 s = true) :
    ∀ (l : List Char) (i : Nat),
      searchAnchoredAux c2 l i = none → searchAnchoredAux c1 l i = none := by
  intro l
  induction l with
  | nil => intro i _; rfl
  | cons c cs ih =>
    intro i h
    simp only [searchAnchoredAux] at h ⊢
    split at h
    · exact absurd h (by simp)
    · rename_i hcond
      rw [if_neg ?_]
      · exact ih _ h
      · intro hc
        exact hcond ⟨hc.1, hm cs hc.2⟩

/-- Monotonicity of `searchAnchored`. -/
theorem searchAnchored_mono (c1 c2 : List Char → Bool)
    (hm : ∀ s, c1 s = true → c2 s = true) (l : List Char)
    (h : searchAnchored c2 l = none) : searchAnchored c1 l = none := by
  simp only [searchAnchored] at h ⊢
  split at h
  · exact absurd h (by simp)
  · rename_i hc2
    rw [if_neg ?_]
    · exact searchAnchoredAux_mono c1 c2 hm l 0 h
    · intro hc1
      exact hc2 (hm l hc1)

/-- The alternatives of the fallback pattern are among those of the qbank pattern. -/
theorem qbankFallbackCore_imp (s : List Char) :
    qbankFallbackCore s = true → qbankCore s = true := by
  simp only [qbankFallbackCore, qbankCore, Bool.or_eq_true]
  tauto

/-- Claim C5: when none of the four section-marker patterns matches, the
whole normalized response becomes the notes span and the other three spans
are empty. -/
theorem splitSections_no_markers (content : String)
    (h1 : searchAnchored notesCore (normalizedOf content) = none)
    (h2 : searchAnchored roadmapCore (normalizedOf content) = none)
    (h3 : searchAnchored resourcesCore (normalizedOf content) = none)
    (h4 : searchAnchored qbankCore (normalizedOf content) = none) :
    splitSections content = ⟨⟨normalizedOf content⟩, "", "", ""⟩ := by
  have hfb : searchAnchored qbankFallbackCore (normalizedOf content) = none :=
    searchAnchored_mono _ _ qbankFallbackCore_imp _ h4
  have hfound : foundSections (normalizedOf content) = [] := by
    simp [foundSections, h1, h2, h3, h4]
  simp [splitSections, splitCore, hfound, hfb]

/-- Witness for C5 at a concrete markerless response. -/
theorem splitSections_no_markers_witness :
    searchAnchored notesCore (normalizedOf "hello world") = none ∧
      splitSections "hello world" = ⟨⟨normalizedOf "hello world"⟩, "", "", ""⟩ :=
  ⟨by decide,
   splitSections_no_markers "hello world" (by decide) (by decide) (by decide) (by decide)⟩

/-- A `String.mk` is the empty string exactly when its character list is
empty. -/
theorem strMk_eq_empty_iff (l : List Char) : (⟨l⟩ : String) = "" ↔ l = [] := by
  constructor
  · intro h
    have := congrArg String.data h
    simpa using this
  · intro h
    rw [h]

/-- The qbank fallback never touches the notes span. -/
theorem splitSections_notes_eq_core (content : String) :
    (splitSections content).notes = (splitCore (normalizedOf content)).notes := by
  simp only [splitSections]
  split
  all_goals try rfl
  all_goals split <;> rfl

/-- Claim C6: when at least one marker is found but the computed notes span
is empty, the notes span is overwritten with the full normalized response, so
the notes section is non-empty whenever the response is. -/
theorem splitSections_notes_recovery (content : String)
    (h1 : foundSections (normalizedOf content) ≠ [])
    (h2 : (computeSpans (normalizedOf content)).notes = "") :
    (splitSections content).notes = ⟨normalizedOf content⟩ ∧
      (normalizedOf content ≠ [] → (splitSections content).notes ≠ "") := by
  have hcore : (splitCore (normalizedOf content)).notes = ⟨normalizedOf content⟩ := by
    simp [splitCore, h1, h2]
  have hnotes : (splitSections content).notes = ⟨normalizedOf content⟩ :=
    (splitSections_notes_eq_core content).trans hcore
  refine ⟨hnotes, fun hne hempty => ?_⟩
  rw [hnotes] at hempty
  exact hne ((strMk_eq_empty_iff _).mp hempty)

unseal List.merge List.mergeSort in
/-- Witness for C6: the response starts directly at the roadmap marker, so
the computed notes span is empty and recovery fills it with the whole text. -/
theorem splitSections_notes_recovery_witness :
    foundSections (normalizedOf "SECTION 2: LEARNING ROADMAP\nsteps") ≠ [] ∧
      (splitSections "SECTION 2: LEARNING ROADMAP\nsteps").notes
        = "SECTION 2: LEARNING ROADMAP\nsteps" :=
  ⟨by decide,
   ((splitSections_notes_recovery "SECTION 2: LEARNING ROADMAP\nsteps"
       (by decide) (by decide)).1).trans rfl⟩

/-! ## Document-set selection (claim C8) -/

/-- Claim C8: `04_QA` is produced exactly when the total question count
(pattern menu plus active custom) is non-zero, and when the qbank span is
empty the splitter input is the whole normalized response text. -/
theorem qa_doc_production (patterns : List QuestionPattern)
    (customs : List CustomQuestion) (content : String)
    (hq : (splitSections content).qbank = "") :
    ("04_QA" ∈ pdfKeys patterns customs ↔ total_questions patterns customs ≠ 0) ∧
      qbankSource content = ⟨normalizedOf content⟩ := by
  constructor
  · by_cases h0 : total_questions patterns customs = 0
    · simp only [pdfKeys, h0]
      decide
    · have hp : total_questions patterns customs > 0 := Nat.pos_of_ne_zero h0
      simp only [pdfKeys, if_pos hp]
      exact ⟨fun _ => h0, fun _ => by decide⟩
  · simp [qbankSource, pyOrStr, hq]

/-- Witness for C8 at a concrete generation. -/
theorem qa_doc_production_witness :
    (splitSections "hello").qbank = "" ∧
      (("04_QA" ∈ pdfKeys [⟨4, 2⟩] [] ↔ total_questions [⟨4, 2⟩] [] ≠ 0) ∧
        qbankSource "hello" = ⟨normalizedOf "hello"⟩) :=
  ⟨by decide, qa_doc_production [⟨4, 2⟩] [] "hello" (by decide)⟩

/-! ## The Question/Answer Splitter claim -/

/-- A substring absent from a list is absent from any suffix of it. -/
theorem findSub?_none_drop (l pat : List Char) (k : Nat)
    (h : findSub? l pat = none) : findSub? (l.drop k) pat = none := by
  induction l generalizing k with
  | nil => cases k <;> simpa using h
  | cons c cs ih =>
    cases k with
    | zero => exact h
    | succ k =>
      simp only [findSub?] at h
      split at h
      · exact absurd h (by simp)
      · simp only [Option.map_eq_none'] at h
        exact ih k h

/-- The fallback step never leaves both sides empty. -/
theorem qaFinalize_not_both_empty (t q1 a1 : List Char) :
    (qaFinalize t q1 a1).1 ≠ [] ∨ (qaFinalize t q1 a1).2 ≠ [] := by
  unfold qaFinalize
  split
  · right
    show tk "No answer key found" ≠ []
    decide
  · rename_i hcond
    rcases not_and_or.mp hcond with hb | hb
    · right
      exact hb
    · left
      exact hb

/-- The result of the no-`SECTION 2` extraction ladder never has both sides
empty: the final fallback installs the sentinel whenever everything else
left both sides blank. -/
theorem qaNoSec2_not_both_empty (t : List Char) :
    (qaNoSec2 t).1 ≠ [] ∨ (qaNoSec2 t).2 ≠ [] := by
  simp only [qaNoSec2]
  exact qaFinalize_not_both_empty _ _ _

/-- When every extraction strategy fails outright, the ladder returns the
whole span and the literal sentinel. -/
theorem qaNoSec2_all_fail (t : List Char)
    (h1 : searchSpan akSearchLen t = none)
    (h2 : findAnswerBlocks t = [])
    (h3 : findQuestionBlocks t = []) :
    qaNoSec2 t = (t, tk "No answer key found") := by
  simp [qaNoSec2, qaFinalize, h1, h2, h3]

/-- Claim C1 (amended): for every qbank span whose normalized text does not
contain the literal `SECTION 2`, the two QAView sides are never both empty,
and when every extraction strategy fails the answers side is the literal
`No answer key found` sentinel while the questions side is the full
(preamble-trimmed) span.  Spans containing `SECTION 2` can produce two empty
sides (see the counterexample). -/
theorem qaSplit_no_sec2 (qbank : String)
    (h : findSub? (qbankNormalized qbank) (tk "SECTION 2") = none) :
    (¬ ((qaSplit qbank).questions_text = "" ∧ (qaSplit qbank).answers_text = "")) ∧
      (searchSpan akSearchLen (qbankTextOf qbank) = none →
        findAnswerBlocks (qbankTextOf qbank) = [] →
        findQuestionBlocks (qbankTextOf qbank) = [] →
        qaSplit qbank = ⟨⟨qbankTextOf qbank⟩, "No answer key found"⟩) := by
  have h' : findSub? (qbankTextOf qbank) (tk "SECTION 2") = none := by
    rw [qbankTextOf]
    cases hs : searchPlain qpaperCore (qbankNormalized qbank) with
    | none => exact h
    | some i => exact findSub?_none_drop _ _ i h
  constructor
  · intro hboth
    obtain ⟨hq, ha⟩ := hboth
    simp only [qaSplit, h'] at hq ha
    rcases qaNoSec2_not_both_empty (qbankTextOf qbank) with hne | hne
    · exact hne ((strMk_eq_empty_iff _).mp hq)
    · exact hne ((strMk_eq_empty_iff _).mp ha)
  · intro ha1 ha2 ha3
    simp only [qaSplit, h', qaNoSec2_all_fail _ ha1 ha2 ha3]
    rfl

/-- Witness for C1 at a concrete span with no extractable structure. -/
theorem qaSplit_no_sec2_witness :
    findSub? (qbankNormalized "hello") (tk "SECTION 2") = none ∧
      ((¬ ((qaSplit "hello").questions_text = "" ∧ (qaSplit "hello").answers_text = "")) ∧
        (searchSpan akSearchLen (qbankTextOf "hello") = none →
          findAnswerBlocks (qbankTextOf "hello") = [] →
          findQuestionBlocks (qbankTextOf "hello") = [] →
          qaSplit "hello" = ⟨⟨qbankTextOf "hello"⟩, "No answer key found"⟩)) :=
  ⟨by decide, qaSplit_no_sec2 "hello" (by decide)⟩

/-- Counterexample to C1 as stated: a non-empty qbank span (here the model
emitted only the question-paper header followed by the `SECTION 2` label) on
which both QAView sides come out empty, and the answers side is not the
claimed lower-case sentinel. -/
theorem qaSplit_both_empty_counterexample :
    qaSplit "SECTION 1: QUESTION PAPER\nSECTION 2" = ⟨"", ""⟩ ∧
      ("SECTION 1: QUESTION PAPER\nSECTION 2" : String) ≠ "" :=
  ⟨rfl, by decide⟩

/-! ## The Bloom-detection claim -/

/-- Maximum of a list of naturals (0 for the empty list). -/
def listMaxNat (l : List Nat) : Nat := l.foldr max 0

/-- Every element is at most the list maximum. -/
theorem le_listMaxNat_of_mem (l : List Nat) (a : Nat) (h : a ∈ l) :
    a ≤ listMaxNat l := by
  induction l with
  | nil => cases h
  | cons b bs ih =>
    rcases List.mem_cons.mp h with hb | hb
    · subst hb
      exact Nat.le_max_left _ _
    · exact le_trans (ih hb) (Nat.le_max_right _ _)

/-- Unfolding `find?` at a head satisfying the predicate. -/
theorem find?_cons_true {α : Type} (P : α → Bool) (a : α) (l : List α)
    (h : P a = true) : List.find? P (a :: l) = some a := by
  simp [List.find?_cons, h]

/-- Unfolding `find?` at a head violating the predicate. -/
theorem find?_cons_false {α : Type} (P : α → Bool) (a : α) (l : List α)
    (h : P a = false) : List.find? P (a :: l) = List.find? P l := by
  simp [List.find?_cons, h]

/-- Python `max(pairs, key=snd)` as a fold is exactly the first pair whose second
component attains the maximum of all second components. -/
theorem pyMaxPair_spec (ps : List (String × Nat)) (p : String × Nat) :
    (p :: ps).find? (fun x => x.2 == listMaxNat ((p :: ps).map Prod.snd))
      = some (ps.foldl (fun best x => if x.2 > best.2 then x else best) p) := by
  induction ps generalizing p with
  | nil =>
    simp [listMaxNat, List.find?]
  | cons x xs ih =>
    rw [List.foldl_cons]
    by_cases hgt : x.2 > p.2
    · rw [if_pos hgt]
      have hMeq : listMaxNat ((p :: x :: xs).map Prod.snd)
          = listMaxNat ((x :: xs).map Prod.snd) := by
        show max p.2 (max x.2 (listMaxNat (xs.map Prod.snd)))
            = max x.2 (listMaxNat (xs.map Prod.snd))
        omega
      have hp : (p.2 == listMaxNat ((p :: x :: xs).map Prod.snd)) = false := by
        rw [hMeq]
        show (p.2 == max x.2 (listMaxNat (xs.map Prod.snd))) = false
        simp only [beq_eq_false_iff_ne, ne_eq]
        omega
      rw [find?_cons_false
        (fun y => y.2 == listMaxNat ((p :: x :: xs).map Prod.snd)) p _ hp, hMeq]
      exact ih x
    · rw [if_neg hgt]
      have hle : x.2 ≤ p.2 := Nat.le_of_not_lt hgt
      have hMeq : listMaxNat ((p :: x :: xs).map Prod.snd)
          = listMaxNat ((p :: xs).map Prod.snd) := by
        show max p.2 (max x.2 (listMaxNat (xs.map Prod.snd)))
            = max p.2 (listMaxNat (xs.map Prod.snd))
        omega
      rw [hMeq]
      by_cases hp : (p.2 == listMaxNat ((p :: xs).map Prod.snd)) = true
      · rw [find?_cons_true
            (fun y => y.2 == listMaxNat ((p :: xs).map Prod.snd)) p _ hp, ← ih p,
          find?_cons_true
            (fun y => y.2 == listMaxNat ((p :: xs).map Prod.snd)) p _ hp]
      · have hpf : (p.2 == listMaxNat ((p :: xs).map Prod.snd)) = false := by
          simp only [Bool.not_eq_true] at hp
          exact hp
        have hple : p.2 ≤ listMaxNat ((p :: xs).map Prod.snd) := by
          show p.2 ≤ max p.2 (listMaxNat (xs.map Prod.snd))
          omega
        have hxf : (x.2 == listMaxNat ((p :: xs).map Prod.snd)) = false := by
          simp only [beq_eq_false_iff_ne, ne_eq] at hpf ⊢
          omega
        rw [find?_cons_false
            (fun y => y.2 == listMaxNat ((p :: xs).map Prod.snd)) p _ hpf,
          find?_cons_false
            (fun y => y.2 == listMaxNat ((p :: xs).map Prod.snd)) x _ hxf, ← ih p,
          find?_cons_false
            (fun y => y.2 == listMaxNat ((p :: xs).map Prod.snd)) p _ hpf]

/-- Modelled from the spec wording of §4.1: empty text is "Not detected",
an all-zero score vector defaults to "Understanding", otherwise the first
level (in declaration order) attaining the maximal score wins. -/
def detectBloomSpec (question_text : String) : String :=
  let text := pyLowerL (pyStripL question_text.data)
  if text = [] then "Not detected"
  else if BLOOM_KEYWORDS.all (fun p => levelScore text p.2 == 0) then "Understanding"
  else
    match BLOOM_KEYWORDS.find? (fun p =>
        levelScore text p.2
          == listMaxNat (BLOOM_KEYWORDS.map (fun p2 => levelScore text p2.2))) with
    | some p => p.1
    | none => "Understanding"

example : detectBloomSpec "Define a stack." = "Remembering" := by decide
example : detectBloomSpec "   " = "Not detected" := by decide
example : detectBloomSpec "qqq" = "Understanding" := by decide

/-- The selection step of `detect_bloom_level` agrees with the spec
formulation on every (non-empty) lower-cased stripped text. -/
theorem bloomPick_spec (text : List Char) :
    (if (pyMaxPair (BLOOM_KEYWORDS.map (fun p => (p.1, levelScore text p.2)))).2 > 0
     then (pyMaxPair (BLOOM_KEYWORDS.map (fun p => (p.1, levelScore text p.2)))).1
     else "Understanding")
    = (if BLOOM_KEYWORDS.all (fun p => levelScore text p.2 == 0) then "Understanding"
       else
         match BLOOM_KEYWORDS.find? (fun p =>
             levelScore text p.2
               == listMaxNat (BLOOM_KEYWORDS.map (fun p2 => levelScore text p2.2))) with
         | some p => p.1
         | none => "Understanding") := by
  obtain ⟨k0, krest, hKW⟩ : ∃ k0 krest, BLOOM_KEYWORDS = k0 :: krest := ⟨_, _, rfl⟩
  have hsnd : (BLOOM_KEYWORDS.map (fun p => (p.1, levelScore text p.2))).map Prod.snd
      = BLOOM_KEYWORDS.map (fun p2 => levelScore text p2.2) := by
    rw [List.map_map]
    rfl
  have hfind : (BLOOM_KEYWORDS.map (fun p => (p.1, levelScore text p.2))).find?
        (fun x => x.2 == listMaxNat (BLOOM_KEYWORDS.map (fun p2 => levelScore text p2.2)))
      = some (pyMaxPair (BLOOM_KEYWORDS.map (fun p => (p.1, levelScore text p.2)))) := by
    rw [← hsnd]
    simp only [hKW, List.map_cons]
    exact pyMaxPair_spec _ _
  have hmem : ∃ p ∈ BLOOM_KEYWORDS,
      (p.1, levelScore text p.2)
        = pyMaxPair (BLOOM_KEYWORDS.map (fun p => (p.1, levelScore text p.2))) :=
    List.mem_map.mp (List.mem_of_find?_eq_some hfind)
  have hbestM : (pyMaxPair (BLOOM_KEYWORDS.map (fun p => (p.1, levelScore text p.2)))).2
      = listMaxNat (BLOOM_KEYWORDS.map (fun p2 => levelScore text p2.2)) := by
    have hcond := List.find?_some hfind
    simpa using hcond
  have hfind2 := hfind
  rw [List.find?_map] at hfind2
  rw [Option.map_eq_some'] at hfind2
  obtain ⟨pb, hpb, hfpb⟩ := hfind2
  have hpb' : BLOOM_KEYWORDS.find? (fun p =>
      levelScore text p.2
        == listMaxNat (BLOOM_KEYWORDS.map (fun p2 => levelScore text p2.2))) = some pb := hpb
  by_cases hall : BLOOM_KEYWORDS.all (fun p => levelScore text p.2 == 0) = true
  · obtain ⟨p, hpmem, hfp⟩ := hmem
    have hz : levelScore text p.2 = 0 := by
      have := List.all_eq_true.mp hall p hpmem
      simpa using this
    have hbz : (pyMaxPair (BLOOM_KEYWORDS.map (fun p => (p.1, levelScore text p.2)))).2 = 0 := by
      rw [← hfp]
      exact hz
    rw [if_neg (by omega), if_pos hall]
  · have hallf : BLOOM_KEYWORDS.all (fun p => levelScore text p.2 == 0) = false := by
      simp only [Bool.not_eq_true] at hall
      exact hall
    obtain ⟨p0, hp0mem, hp0⟩ := List.all_eq_false.mp hallf
    have hp0pos : 0 < levelScore text p0.2 := by
      simp only [beq_iff_eq] at hp0
      omega
    have hMpos : 0 < listMaxNat (BLOOM_KEYWORDS.map (fun p2 => levelScore text p2.2)) :=
      lt_of_lt_of_le hp0pos
        (le_listMaxNat_of_mem _ _ (List.mem_map_of_mem _ hp0mem))
    rw [if_pos (by rw [hbestM]; exact hMpos), if_neg hall, hpb', ← hfpb]

/-- Claim C4: `detect_bloom_level` is a pure function of its input text and
equals the spec description: empty or whitespace-only text gives
"Not detected", an all-zero score vector gives "Understanding", otherwise
the first declared level attaining the maximal keyword score is returned
(3 points per starts-with hit, else 1 per contains hit, accumulating per
level). -/
theorem detect_bloom_level_spec (q : String) :
    detect_bloom_level q = detectBloomSpec q := by
  by_cases hempty : pyLowerL (pyStripL q.data) = []
  · simp only [detect_bloom_level, detectBloomSpec, hempty, if_pos]
  · simp only [detect_bloom_level, detectBloomSpec]
    rw [if_neg hempty, if_neg hempty]
    exact bloomPick_spec (pyLowerL (pyStripL q.data))

/-! ## The Instruction Compiler claim

`marks_map` is built by upserting `(marks, count)` entries (patterns first,
then one entry of count 1 per custom question); the lemmas below
characterize the resulting association list: its keys are the distinct mark
values in first-occurrence order and its value at each key is the summed
count.
-/

/-- All mark values mentioned, pattern marks first, then custom marks. -/
def marksOfAll (patterns : List QuestionPattern) (custom_qs : List CustomQuestion) : List Nat :=
  patterns.map (fun q => q.marks) ++ custom_qs.map (fun q => q.marks)

/-- The spec-side total at one mark value: summed pattern counts plus one per
custom question with that mark. -/
def markTotal (patterns : List QuestionPattern) (custom_qs : List CustomQuestion)
    (m : Nat) : Nat :=
  ((patterns.filter (fun q => q.marks = m)).map (fun q => q.count)).sum
    + (custom_qs.filter (fun q => q.marks = m)).length

/-- Deduplication keeping first occurrences, from an accumulator. -/
def dedupAccum (acc : List Nat) (l : List Nat) : List Nat :=
  l.foldl (fun ks k => if k ∈ ks then ks else ks ++ [k]) acc

/-- First-occurrence deduplication (the key order of a Python dict). -/
def firstDedup (l : List Nat) : List Nat := dedupAccum [] l

/-- Modelled from the spec: one line per distinct mark value in ascending
order, counting summed pattern counts plus one per custom question. -/
def specMarkLines (patterns : List QuestionPattern)
    (custom_qs : List CustomQuestion) : List String :=
  ((firstDedup (marksOfAll patterns custom_qs)).mergeSort
      (fun a b => decide (a ≤ b))).map
    (fun m => markLine (markTotal patterns custom_qs m) m)

/-- Upserting then reading the same key gives the new value. -/
theorem dictGet_dictSet_self (d : List (Nat × Nat)) (k v : Nat) :
    dictGet (dictSet d k v) k = v := by
  induction d with
  | nil => simp [dictSet, dictGet]
  | cons a rest ih =>
    obtain ⟨k1, v1⟩ := a
    by_cases h : k1 = k
    · simp [dictSet, h, dictGet]
    · simp [dictSet, h, dictGet, ih]

/-- Upserting one key leaves other lookups unchanged. -/
theorem dictGet_dictSet_ne (d : List (Nat × Nat)) (k v m : Nat) (h : k ≠ m) :
    dictGet (dictSet d k v) m = dictGet d m := by
  induction d with
  | nil => simp [dictSet, dictGet, h]
  | cons a rest ih =>
    obtain ⟨k1, v1⟩ := a
    by_cases h1 : k1 = k
    · simp [dictSet, h1, dictGet, h]
    · simp [dictSet, h1, dictGet, ih]

/-- Upserting keeps the key order, appending a genuinely new key. -/
theorem keys_dictSet (d : List (Nat × Nat)) (k v : Nat) :
    (dictSet d k v).map Prod.fst
      = if k ∈ d.map Prod.fst then d.map Prod.fst else d.map Prod.fst ++ [k] := by
  induction d with
  | nil => simp [dictSet]
  | cons a rest ih =>
    obtain ⟨k1, v1⟩ := a
    by_cases h1 : k1 = k
    · simp [dictSet, h1]
    · have h1' : ¬k = k1 := fun hh => h1 hh.symm
      by_cases h2 : k ∈ rest.map Prod.fst
      · simp [dictSet, h1, ih, h2, h1']
      · simp [dictSet, h1, ih, h2, h1']

/-- The double fold building `marks_map`, over explicit `(mark, add)`
entries. -/
def entryFold (d : List (Nat × Nat)) (es : List (Nat × Nat)) : List (Nat × Nat) :=
  es.foldl (fun d2 e => dictSet d2 e.1 (dictGet d2 e.1 + e.2)) d

/-- Total contribution of an entry list at one key. -/
def entrySum (es : List (Nat × Nat)) (m : Nat) : Nat :=
  ((es.filter (fun e => e.1 = m)).map Prod.snd).sum

theorem entryFold_cons (d : List (Nat × Nat)) (e : Nat × Nat) (es : List (Nat × Nat)) :
    entryFold d (e :: es) = entryFold (dictSet d e.1 (dictGet d e.1 + e.2)) es := rfl

/-- The keys of the fold are the accumulated first-occurrence keys. -/
theorem keys_entryFold (es : List (Nat × Nat)) :
    ∀ d, (entryFold d es).map Prod.fst = dedupAccum (d.map Prod.fst) (es.map Prod.fst) := by
  induction es with
  | nil => intro d; rfl
  | cons e es ih =>
    intro d
    rw [entryFold_cons, ih, keys_dictSet]
    rfl

/-- The value of the fold at any key adds the entry contributions. -/
theorem dictGet_entryFold (es : List (Nat × Nat)) :
    ∀ d m, dictGet (entryFold d es) m = dictGet d m + entrySum es m := by
  induction es with
  | nil => intro d m; simp [entryFold, entrySum]
  | cons e es ih =>
    intro d m
    rw [entryFold_cons, ih]
    by_cases h : e.1 = m
    · rw [← h, dictGet_dictSet_self]
      have hsum : entrySum (e :: es) e.1 = e.2 + entrySum es e.1 := by
        simp [entrySum, List.filter_cons]
      rw [hsum]
      omega
    · rw [dictGet_dictSet_ne _ _ _ _ h]
      have hsum : entrySum (e :: es) m = entrySum es m := by
        simp [entrySum, List.filter_cons, h]
      rw [hsum]

/-- Accumulated dedup preserves key distinctness. -/
theorem nodup_dedupAccum (l : List Nat) :
    ∀ acc, acc.Nodup → (dedupAccum acc l).Nodup := by
  induction l with
  | nil => intro acc h; exact h
  | cons x l ih =>
    intro acc h
    have hstep : dedupAccum acc (x :: l)
        = dedupAccum (if x ∈ acc then acc else acc ++ [x]) l := rfl
    by_cases hx : x ∈ acc
    · rw [hstep, if_pos hx]
      exact ih acc h
    · rw [hstep, if_neg hx]
      refine ih _ ?_
      simp [List.nodup_append, h, hx]

/-- Membership in the accumulated dedup. -/
theorem mem_dedupAccum (l : List Nat) :
    ∀ acc m, m ∈ dedupAccum acc l ↔ m ∈ acc ∨ m ∈ l := by
  induction l with
  | nil => intro acc m; simp [dedupAccum]
  | cons x l ih =>
    intro acc m
    have hstep : dedupAccum acc (x :: l)
        = dedupAccum (if x ∈ acc then acc else acc ++ [x]) l := rfl
    by_cases hx : x ∈ acc
    · rw [hstep, if_pos hx, ih, List.mem_cons]
      constructor
      · tauto
      · rintro (h | rfl | h)
        · tauto
        · exact Or.inl hx
        · tauto
    · rw [hstep, if_neg hx, ih, List.mem_cons]
      simp only [List.mem_append, List.mem_singleton]
      tauto

/-- An association list with distinct keys is its key list paired with its
lookup values. -/
theorem assoc_eq_keys_map (d : List (Nat × Nat)) (h : (d.map Prod.fst).Nodup) :
    d = (d.map Prod.fst).map (fun k => (k, dictGet d k)) := by
  induction d with
  | nil => rfl
  | cons a rest ih =>
    obtain ⟨k1, v1⟩ := a
    simp only [List.map_cons] at h ⊢
    obtain ⟨hk1, hrest⟩ := List.nodup_cons.mp h
    have h1 : dictGet ((k1, v1) :: rest) k1 = v1 := by simp [dictGet]
    have h2 : ∀ k ∈ rest.map Prod.fst, dictGet ((k1, v1) :: rest) k = dictGet rest k := by
      intro k hk
      have hne : k1 ≠ k := fun he => hk1 (he ▸ hk)
      simp [dictGet, hne]
    rw [h1]
    congr 1
    rw [List.map_congr_left (fun k hk => by rw [h2 k hk])]
    exact ih hrest

/-- The two folds of `question_instruction` are one fold over explicit
entries: `(marks, count)` per pattern then `(marks, 1)` per custom
question. -/
theorem marks_map_eq (patterns : List QuestionPattern) (custom_qs : List CustomQuestion) :
    custom_qs.foldl (fun d (q : CustomQuestion) => dictSet d q.marks (dictGet d q.marks + 1))
        (patterns.foldl
          (fun d (q : QuestionPattern) => dictSet d q.marks (dictGet d q.marks + q.count)) [])
      = entryFold []
          (patterns.map (fun (q : QuestionPattern) => (q.marks, q.count))
            ++ custom_qs.map (fun (q : CustomQuestion) => (q.marks, 1))) := by
  rw [entryFold, List.foldl_append, List.foldl_map, List.foldl_map]

/-- The keys of the explicit entry list are all the mark values. -/
theorem map_fst_entries (patterns : List QuestionPattern) (custom_qs : List CustomQuestion) :
    (patterns.map (fun (q : QuestionPattern) => (q.marks, q.count))
        ++ custom_qs.map (fun (q : CustomQuestion) => (q.marks, (1 : Nat)))).map Prod.fst
      = marksOfAll patterns custom_qs := by
  rw [List.map_append, List.map_map, List.map_map]
  rfl

/-- Sum of singleton contributions is a length. -/
theorem sum_map_one {α : Type} (l : List α) :
    (l.map (fun _ => (1 : Nat))).sum = l.length := by
  induction l with
  | nil => rfl
  | cons a l ih => simp [ih, Nat.add_comm]

/-- The entry contribution at one mark value is the spec-side total. -/
theorem entrySum_eq_markTotal (patterns : List QuestionPattern)
    (custom_qs : List CustomQuestion) (m : Nat) :
    entrySum (patterns.map (fun q => (q.marks, q.count))
        ++ custom_qs.map (fun q => (q.marks, 1))) m
      = markTotal patterns custom_qs m := by
  unfold entrySum markTotal
  rw [List.filter_append, List.map_append, List.sum_append]
  congr 1
  · rw [List.filter_map, List.map_map]
    rfl
  · rw [List.filter_map, List.map_map]
    exact sum_map_one _

/-- The Python tuple order on `(marks, count)` pairs is antisymmetric. -/
instance : IsAntisymm (Nat × Nat) (fun x y => pairLe x y = true) := ⟨by
  intro a b hab hba
  obtain ⟨a1, a2⟩ := a
  obtain ⟨b1, b2⟩ := b
  simp only [pairLe, decide_eq_true_eq] at hab hba
  simp only [Prod.mk.injEq]
  omega⟩

/-- The relation `pairLe` is transitive. -/
theorem pairLe_trans (a b c : Nat × Nat) (h1 : pairLe a b = true)
    (h2 : pairLe b c = true) : pairLe a c = true := by
  obtain ⟨a1, a2⟩ := a
  obtain ⟨b1, b2⟩ := b
  obtain ⟨c1, c2⟩ := c
  simp only [pairLe, decide_eq_true_eq] at h1 h2 ⊢
  omega

/-- The relation `pairLe` is total. -/
theorem pairLe_total (a b : Nat × Nat) : (pairLe a b || pairLe b a) = true := by
  obtain ⟨a1, a2⟩ := a
  obtain ⟨b1, b2⟩ := b
  simp only [pairLe, Bool.or_eq_true, decide_eq_true_eq]
  omega

/-- Sorting key/value pairs with distinct keys by Python tuple order equals
sorting the keys and re-pairing. -/
theorem mergeSort_pairLe_map (K : List Nat) (g : Nat → Nat) (hK : K.Nodup) :
    (K.map (fun m => (m, g m))).mergeSort pairLe
      = (K.mergeSort (fun a b => decide (a ≤ b))).map (fun m => (m, g m)) := by
  have hperm : ((K.map (fun m => (m, g m))).mergeSort pairLe).Perm
      ((K.mergeSort (fun a b => decide (a ≤ b))).map (fun m => (m, g m))) := by
    refine (List.mergeSort_perm _ _).trans ?_
    exact (List.Perm.map _ (List.mergeSort_perm K _).symm)
  have hs1 : List.Sorted (fun x y => pairLe x y = true)
      ((K.map (fun m => (m, g m))).mergeSort pairLe) :=
    List.sorted_mergeSort pairLe_trans pairLe_total _
  have hsortK : List.Sorted (fun a b => a ≤ b) (K.mergeSort (fun a b => decide (a ≤ b))) := by
    have := @List.sorted_mergeSort Nat (fun a b => decide (a ≤ b))
      (fun a b c h1 h2 => by
        simp only [decide_eq_true_eq] at h1 h2 ⊢
        omega)
      (fun a b => by
        simp only [Bool.or_eq_true, decide_eq_true_eq]
        omega)
      K
    exact this.imp (fun h => by simpa using h)
  have hnodupK : (K.mergeSort (fun a b => decide (a ≤ b))).Nodup :=
    ((List.mergeSort_perm K _).nodup_iff).mpr hK
  have hlt : List.Sorted (fun a b => a < b) (K.mergeSort (fun a b => decide (a ≤ b))) :=
    List.Sorted.lt_of_le hsortK hnodupK
  have hs2 : List.Sorted (fun x y => pairLe x y = true)
      ((K.mergeSort (fun a b => decide (a ≤ b))).map (fun m => (m, g m))) := by
    refine List.Pairwise.map _ ?_ hlt
    intro a b hab
    simp only [pairLe, decide_eq_true_eq]
    omega
  exact List.eq_of_perm_of_sorted hperm hs1 hs2

/-- The built and sorted `marks_map` is the ascending list of distinct mark
values paired with their totals. -/
theorem marks_map_sorted (patterns : List QuestionPattern) (custom_qs : List CustomQuestion) :
    (custom_qs.foldl (fun d (q : CustomQuestion) => dictSet d q.marks (dictGet d q.marks + 1))
        (patterns.foldl
          (fun d (q : QuestionPattern) => dictSet d q.marks (dictGet d q.marks + q.count))
          [])).mergeSort pairLe
      = ((firstDedup (marksOfAll patterns custom_qs)).mergeSort
            (fun a b => decide (a ≤ b))).map
          (fun m => (m, markTotal patterns custom_qs m)) := by
  rw [marks_map_eq]
  have hkeys : (entryFold []
      (patterns.map (fun (q : QuestionPattern) => (q.marks, q.count))
        ++ custom_qs.map (fun (q : CustomQuestion) => (q.marks, (1 : Nat))))).map Prod.fst
      = firstDedup (marksOfAll patterns custom_qs) := by
    rw [keys_entryFold, map_fst_entries]
    rfl
  have hnodup : ((entryFold []
      (patterns.map (fun (q : QuestionPattern) => (q.marks, q.count))
        ++ custom_qs.map (fun (q : CustomQuestion) => (q.marks, (1 : Nat))))).map Prod.fst).Nodup := by
    rw [hkeys]
    exact nodup_dedupAccum _ [] List.nodup_nil
  have hget : ∀ m, dictGet (entryFold []
      (patterns.map (fun (q : QuestionPattern) => (q.marks, q.count))
        ++ custom_qs.map (fun (q : CustomQuestion) => (q.marks, (1 : Nat))))) m
      = markTotal patterns custom_qs m := by
    intro m
    rw [dictGet_entryFold, entrySum_eq_markTotal]
    simp [dictGet]
  have hD : entryFold []
      (patterns.map (fun (q : QuestionPattern) => (q.marks, q.count))
        ++ custom_qs.map (fun (q : CustomQuestion) => (q.marks, (1 : Nat))))
      = (firstDedup (marksOfAll patterns custom_qs)).map
          (fun m => (m, markTotal patterns custom_qs m)) := by
    have h0 := assoc_eq_keys_map (entryFold []
      (patterns.map (fun (q : QuestionPattern) => (q.marks, q.count))
        ++ custom_qs.map (fun (q : CustomQuestion) => (q.marks, (1 : Nat))))) hnodup
    rw [hkeys] at h0
    have h1 : (firstDedup (marksOfAll patterns custom_qs)).map
        (fun k => (k, dictGet (entryFold []
          (patterns.map (fun (q : QuestionPattern) => (q.marks, q.count))
            ++ custom_qs.map (fun (q : CustomQuestion) => (q.marks, (1 : Nat))))) k))
        = (firstDedup (marksOfAll patterns custom_qs)).map
            (fun m => (m, markTotal patterns custom_qs m)) :=
      List.map_congr_left (fun k _ => by rw [hget k])
    exact h0.trans h1
  rw [hD]
  exact mergeSort_pairLe_map _ _ (nodup_dedupAccum _ [] List.nodup_nil)

unseal List.merge List.mergeSort in
/-- Claim C3: the mark-distribution instruction has exactly one line per
distinct mark value in ascending order, each counting the summed pattern
counts plus one per active custom question with that mark; in particular,
for patterns `[{count 4, marks 2}]` with no custom questions it is exactly
`- 4 questions of 2 marks each`. -/
theorem question_instruction_spec :
    (∀ (patterns : List QuestionPattern) (custom_qs : List CustomQuestion),
        question_instruction patterns custom_qs
          = String.intercalate "\n" (specMarkLines patterns custom_qs)) ∧
      question_instruction [⟨4, 2⟩] [] = "- 4 questions of 2 marks each" := by
  constructor
  · intro patterns custom_qs
    simp only [question_instruction, specMarkLines]
    rw [marks_map_sorted, List.map_map]
    rfl
  · rfl
